import Mathlib

/-!
Shallow embedding of the storage credential/configuration subsystem of the
databasus backend (package `storages`, file
`backend/internal/features/storages/service.go`), together with models of
the collaborators the service calls into.  The service functions are
translated line by line from `service.go`; the Storage entity, the variant
payload handlers, the repository and the field encryptor are not part of
the provided sources, so they are modelled from the specification, each
with a doc comment saying so.
-/

namespace Databasus

/-- Entity identifiers (`uuid.UUID` in the source); modelled as naturals. -/
abbrev UUID := Nat

/-- The nil UUID `uuid.Nil`, which on a Storage signals "create". -/
def nilUUID : UUID := 0

/-- Global user roles (`users_enums.UserRole`); only the admin /
non-admin distinction is observed by the storage service. -/
inductive UserRole where
  | admin
  | member
deriving DecidableEq, Repr

/-- The acting user (`users_models.User`): its id and global role. -/
structure User where
  id : UUID
  role : UserRole
deriving DecidableEq, Repr

/-- The storage type discriminator (`StorageType`); one constructor per
backend kind. -/
inductive StorageType where
  | local
  | s3
  | nas
  | azureBlob
  | ftp
  | sftp
  | googleDrive
  | rclone
deriving DecidableEq, Repr

/-- Modelled from the spec: the encrypted-field representation.  A stored
sensitive field value is either plaintext (`plain`, with `plain ""` the
unset value) or carries the opaque ciphertext marker binding it to the
owning entity id (`cipher`).  The marker distinguishes ciphertext from
plaintext pending first encryption. -/
inductive FieldValue where
  | plain (s : String)
  | cipher (entity : UUID) (payload : String)
deriving DecidableEq, Repr

/-- Emptiness test used by the partial-update rule: the Go code compares
the incoming sensitive field against the empty string. -/
def FieldValue.isEmptyVal : FieldValue → Bool
  | .plain s => s = ""
  | .cipher _ _ => false

/-- Modelled from the spec: `FieldEncryptor.Encrypt(entityId, plaintext)`
returns a ciphertext bound to the owning entity id. -/
def FieldEncryptor.Encrypt (entityId : UUID) (plaintext : String) : FieldValue :=
  .cipher entityId plaintext

/-- Modelled from the spec: `FieldEncryptor.Decrypt(entityId, value)`
recovers the plaintext of a ciphertext bound to the same entity id and
fails otherwise (a value without the ciphertext marker, or a ciphertext
bound to a different entity, does not decrypt). -/
def FieldEncryptor.Decrypt (entityId : UUID) (v : FieldValue) : Except String String :=
  match v with
  | .cipher e p => if e = entityId then .ok p else .error "decryption failed: wrong entity"
  | .plain _ => .error "decryption failed: value is not ciphertext"

/-- Modelled from the spec: the per-field step of `EncryptSensitiveData` —
a non-empty sensitive field that is not already ciphertext is replaced by
`Encrypt(entityId, value)`; empty or already-encrypted values are left
unchanged. -/
def encryptField (entityId : UUID) (v : FieldValue) : FieldValue :=
  match v with
  | .plain s => if s = "" then .plain "" else FieldEncryptor.Encrypt entityId s
  | .cipher e p => .cipher e p

/-- Modelled from the spec: a variant payload (one of the eight backend
configuration objects).  The spec gives every variant the same uniform
capability set over its fixed sets of non-sensitive and sensitive fields,
so the payload is modelled generically as two named field lists. -/
structure VariantPayload where
  nonSensitive : List (String × String)
  sensitive : List (String × FieldValue)
deriving DecidableEq, Repr

/-- Lookup of a sensitive field by name, defaulting to the unset value. -/
def lookupField (fields : List (String × FieldValue)) (n : String) : FieldValue :=
  match fields.find? (fun f => f.1 = n) with
  | some f => f.2
  | none => .plain ""

/-- Modelled from the spec: `HideSensitiveData` replaces every sensitive
field's value with the empty string, in place; non-sensitive fields are
untouched. -/
def VariantPayload.hide (p : VariantPayload) : VariantPayload :=
  { p with sensitive := p.sensitive.map (fun f => (f.1, FieldValue.plain "")) }

/-- Modelled from the spec: `ApplyUpdate` copies every non-sensitive field
from the incoming payload; a sensitive field is copied from the incoming
payload only if its incoming value is non-empty, otherwise the existing
(previously persisted) value is preserved. -/
def VariantPayload.applyUpdate (existing incoming : VariantPayload) : VariantPayload :=
  { nonSensitive := incoming.nonSensitive
    sensitive := incoming.sensitive.map (fun f =>
      if f.2.isEmptyVal then (f.1, lookupField existing.sensitive f.1) else (f.1, f.2)) }

/-- Modelled from the spec: `EncryptSensitiveData` on a payload encrypts
every non-empty, not-yet-encrypted sensitive field under the owning
entity id. -/
def VariantPayload.encrypt (entityId : UUID) (p : VariantPayload) : VariantPayload :=
  { p with sensitive := p.sensitive.map (fun f => (f.1, encryptField entityId f.2)) }

/-- The Storage aggregate root.  Shared fields follow the spec's data
model and the field names visible in the controller and tests; each of
the eight variant payloads is a nullable pointer in the source, modelled
as an `Option`. -/
structure Storage where
  id : UUID
  workspaceId : UUID
  name : String
  type : StorageType
  isSystem : Bool
  lastSaveError : Option String
  localStorage : Option VariantPayload
  s3Storage : Option VariantPayload
  nasStorage : Option VariantPayload
  azureBlobStorage : Option VariantPayload
  ftpStorage : Option VariantPayload
  sftpStorage : Option VariantPayload
  googleDriveStorage : Option VariantPayload
  rcloneStorage : Option VariantPayload
deriving DecidableEq, Repr

namespace Storage

/-- Modelled from the spec: `HideSensitiveData` on a Storage hides the
sensitive fields of every present variant payload. -/
def HideSensitiveData (s : Storage) : Storage :=
  { s with
    localStorage := s.localStorage.map VariantPayload.hide
    s3Storage := s.s3Storage.map VariantPayload.hide
    nasStorage := s.nasStorage.map VariantPayload.hide
    azureBlobStorage := s.azureBlobStorage.map VariantPayload.hide
    ftpStorage := s.ftpStorage.map VariantPayload.hide
    sftpStorage := s.sftpStorage.map VariantPayload.hide
    googleDriveStorage := s.googleDriveStorage.map VariantPayload.hide
    rcloneStorage := s.rcloneStorage.map VariantPayload.hide }

/-- Modelled from the spec: `HideAllData` nulls out the entire variant
payload (every one of the eight backend configuration objects), so that
even non-sensitive configuration is concealed. -/
def HideAllData (s : Storage) : Storage :=
  { s with
    localStorage := none
    s3Storage := none
    nasStorage := none
    azureBlobStorage := none
    ftpStorage := none
    sftpStorage := none
    googleDriveStorage := none
    rcloneStorage := none }

/-- Per-slot step of `Update`: a slot not matching the incoming type is
nulled out (changing `type` nulls all other variant payloads); the active
slot applies the partial-update rule against the existing payload. -/
def updateSlot (active : Bool) (old incoming : Option VariantPayload) :
    Option VariantPayload :=
  if active then
    match old, incoming with
    | some o, some n => some (o.applyUpdate n)
    | none, some n => some n
    | some o, none => some o
    | none, none => none
  else none

/-- Modelled from the spec: `Update` applies a full-record save onto an
existing record — shared non-sensitive fields (name, type, isSystem) are
copied from the incoming record, and each variant payload slot follows
`updateSlot` (the `workspaceId` is not touched by `Update`; transfers go
through a dedicated operation). -/
def Update (existing incoming : Storage) : Storage :=
  { existing with
    name := incoming.name
    type := incoming.type
    isSystem := incoming.isSystem
    localStorage :=
      updateSlot (incoming.type = .local) existing.localStorage incoming.localStorage
    s3Storage :=
      updateSlot (incoming.type = .s3) existing.s3Storage incoming.s3Storage
    nasStorage :=
      updateSlot (incoming.type = .nas) existing.nasStorage incoming.nasStorage
    azureBlobStorage :=
      updateSlot (incoming.type = .azureBlob) existing.azureBlobStorage incoming.azureBlobStorage
    ftpStorage :=
      updateSlot (incoming.type = .ftp) existing.ftpStorage incoming.ftpStorage
    sftpStorage :=
      updateSlot (incoming.type = .sftp) existing.sftpStorage incoming.sftpStorage
    googleDriveStorage :=
      updateSlot (incoming.type = .googleDrive) existing.googleDriveStorage
        incoming.googleDriveStorage
    rcloneStorage :=
      updateSlot (incoming.type = .rclone) existing.rcloneStorage incoming.rcloneStorage }

/-- The variant payload selected by the storage's type discriminator. -/
def activePayload (s : Storage) : Option VariantPayload :=
  match s.type with
  | .local => s.localStorage
  | .s3 => s.s3Storage
  | .nas => s.nasStorage
  | .azureBlob => s.azureBlobStorage
  | .ftp => s.ftpStorage
  | .sftp => s.sftpStorage
  | .googleDrive => s.googleDriveStorage
  | .rclone => s.rcloneStorage

/-- Modelled from the spec: `EncryptSensitiveData` on a Storage encrypts
the sensitive fields of every present variant payload under the storage's
own entity id. -/
def EncryptSensitiveData (s : Storage) : Storage :=
  { s with
    localStorage := s.localStorage.map (VariantPayload.encrypt s.id)
    s3Storage := s.s3Storage.map (VariantPayload.encrypt s.id)
    nasStorage := s.nasStorage.map (VariantPayload.encrypt s.id)
    azureBlobStorage := s.azureBlobStorage.map (VariantPayload.encrypt s.id)
    ftpStorage := s.ftpStorage.map (VariantPayload.encrypt s.id)
    sftpStorage := s.sftpStorage.map (VariantPayload.encrypt s.id)
    googleDriveStorage := s.googleDriveStorage.map (VariantPayload.encrypt s.id)
    rcloneStorage := s.rcloneStorage.map (VariantPayload.encrypt s.id) }

/-- Modelled from the spec: `Validate` requires the display name to be
non-empty and the payload matching the type discriminator to be present
(the per-variant required-field details are abstracted; they do not
affect the claims settled here beyond validation being able to pass or
fail). -/
def Validate (s : Storage) : Bool :=
  s.name ≠ "" && s.activePayload.isSome

end Storage

/-- The persistent store backing `StorageRepository`: the stored records
plus the next fresh id handed out on create. -/
structure StorageRepo where
  storages : List Storage
  nextId : UUID
deriving DecidableEq, Repr

namespace StorageRepository

/-- Modelled from the spec: `FindByID` fetches the stored record with the
given id; like the GORM repository, a missing record is an error. -/
def FindByID (repo : StorageRepo) (id : UUID) : Except String Storage :=
  match repo.storages.find? (fun s => s.id = id) with
  | some s => .ok s
  | none => .error "storage not found"

/-- Modelled from the spec: `FindByWorkspaceID` returns the storages of
the workspace together with every system storage (system storages are
visible to all workspaces, though owned by their creating workspace). -/
def FindByWorkspaceID (repo : StorageRepo) (workspaceID : UUID) : List Storage :=
  repo.storages.filter (fun s => s.workspaceId = workspaceID || s.isSystem)

/-- Modelled from the spec: `Save` persists a record — a record with the
nil id is inserted under a fresh id, otherwise the stored record with the
same id is replaced (inserted if absent). -/
def Save (repo : StorageRepo) (st : Storage) : Storage × StorageRepo :=
  if st.id = nilUUID then
    let stored := { st with id := repo.nextId }
    (stored, { storages := repo.storages ++ [stored], nextId := repo.nextId + 1 })
  else if repo.storages.any (fun s => s.id = st.id) then
    (st, { repo with storages := repo.storages.map (fun s => if s.id = st.id then st else s) })
  else
    (st, { repo with storages := repo.storages ++ [st] })

/-- Modelled from the spec: `Delete` removes the record with the given
storage's id. -/
def Delete (repo : StorageRepo) (st : Storage) : StorageRepo :=
  { repo with storages := repo.storages.filter (fun s => s.id ≠ st.id) }

end StorageRepository

/-- Service errors (`errors.go` of the storages package), plus wrappers
for propagated repository and connection-probe failures. -/
inductive Err where
  | insufficientPermissionsToManageStorage
  | insufficientPermissionsToViewStorage
  | insufficientPermissionsToViewStorages
  | insufficientPermissionsToTestStorage
  | insufficientPermissionsInSourceWorkspace
  | insufficientPermissionsInTargetWorkspace
  | storageDoesNotBelongToWorkspace
  | storageHasAttachedDatabases
  | storageHasAttachedDatabasesCannotTransfer
  | storageHasOtherAttachedDatabasesCannotTransfer
  | systemStorageCannotBeTransferred
  | systemStorageCannotBeMadePrivate
  | localStorageNotAllowedInCloudMode
  | systemStorageBlocksWorkspaceDeletion
  | validationFailed
  | notFound (msg : String)
  | connectionFailed (msg : String)
deriving DecidableEq, Repr

/-- The service's collaborators, all external to this subsystem: the
workspace authorization service, the cloud-mode flag of the global
configuration, the attachment counter, and the outcome of the
backend-specific connection probe (`none` = reachable, `some msg` =
failure with reason `msg`). -/
structure ServiceEnv where
  canManageDBs : UUID → User → Bool
  canAccessWorkspace : UUID → User → Bool
  isCloud : Bool
  attachedDatabaseIDs : UUID → List UUID
  testConnection : Storage → Option String

namespace StorageService

open StorageRepository

/-- `SaveStorage` (service.go lines 55-137), translated clause by clause:
permission check, cloud-mode local-storage gate, system-storage admin
gate, then the update branch (load, workspace-ownership check,
system-flip check, `Update`, `EncryptSensitiveData`, `Validate`, `Save`)
or the create branch (force `workspaceId` to the argument,
`EncryptSensitiveData`, `Validate`, `Save`). -/
def SaveStorage (env : ServiceEnv) (repo : StorageRepo) (user : User)
    (workspaceID : UUID) (storage : Storage) : Except Err Unit × StorageRepo :=
  if ¬ env.canManageDBs workspaceID user then
    (.error .insufficientPermissionsToManageStorage, repo)
  else if env.isCloud && storage.type = StorageType.local && user.role ≠ UserRole.admin then
    (.error .localStorageNotAllowedInCloudMode, repo)
  else if storage.isSystem && user.role ≠ UserRole.admin then
    (.error .insufficientPermissionsToManageStorage, repo)
  else if storage.id ≠ nilUUID then
    match FindByID repo storage.id with
    | .error e => (.error (.notFound e), repo)
    | .ok existingStorage =>
      if existingStorage.workspaceId ≠ workspaceID then
        (.error .storageDoesNotBelongToWorkspace, repo)
      else if existingStorage.isSystem && ¬ storage.isSystem then
        (.error .systemStorageCannotBeMadePrivate, repo)
      else
        let updated := (existingStorage.Update storage).EncryptSensitiveData
        if ¬ updated.Validate then (.error .validationFailed, repo)
        else (.ok (), (Save repo updated).2)
  else
    let fresh := { storage with workspaceId := workspaceID }.EncryptSensitiveData
    if ¬ fresh.Validate then (.error .validationFailed, repo)
    else (.ok (), (Save repo fresh).2)

/-- `DeleteStorage` (service.go lines 139-181): load, management
permission on the owning workspace, system-storage admin gate,
attachment guard, delete. -/
def DeleteStorage (env : ServiceEnv) (repo : StorageRepo) (user : User)
    (storageID : UUID) : Except Err Unit × StorageRepo :=
  match FindByID repo storageID with
  | .error e => (.error (.notFound e), repo)
  | .ok storage =>
    if ¬ env.canManageDBs storage.workspaceId user then
      (.error .insufficientPermissionsToManageStorage, repo)
    else if storage.isSystem && user.role ≠ UserRole.admin then
      (.error .insufficientPermissionsToManageStorage, repo)
    else if (env.attachedDatabaseIDs storage.id).length > 0 then
      (.error .storageHasAttachedDatabases, repo)
    else
      (.ok (), Delete repo storage)

/-- `GetStorage` (service.go lines 183-209): load; for a non-system
storage require view access on the owning workspace; hide sensitive
data; for a system storage viewed by a non-admin, hide all variant
data. -/
def GetStorage (env : ServiceEnv) (repo : StorageRepo) (user : User)
    (id : UUID) : Except Err Storage :=
  match FindByID repo id with
  | .error e => .error (.notFound e)
  | .ok storage =>
    if ¬ storage.isSystem && ¬ env.canAccessWorkspace storage.workspaceId user then
      .error .insufficientPermissionsToViewStorage
    else
      let storage := storage.HideSensitiveData
      if storage.isSystem && user.role ≠ UserRole.admin then
        .ok storage.HideAllData
      else
        .ok storage

/-- `GetStorages` (service.go lines 211-237): view access on the
workspace, fetch, then the same per-record hiding as `GetStorage`. -/
def GetStorages (env : ServiceEnv) (repo : StorageRepo) (user : User)
    (workspaceID : UUID) : Except Err (List Storage) :=
  if ¬ env.canAccessWorkspace workspaceID user then
    .error .insufficientPermissionsToViewStorages
  else
    .ok ((FindByWorkspaceID repo workspaceID).map (fun storage =>
      let storage := storage.HideSensitiveData
      if storage.isSystem && user.role ≠ UserRole.admin then
        storage.HideAllData
      else
        storage))

/-- `TestStorageConnection` (service.go lines 239-270): load, view
permission, run the probe.  On probe failure the error string is written
only into the in-memory record's `lastSaveError` and the error is
returned — the repository `Save` is not reached.  On success
`lastSaveError` is cleared and the record is persisted. -/
def TestStorageConnection (env : ServiceEnv) (repo : StorageRepo) (user : User)
    (storageID : UUID) : Except Err Unit × StorageRepo :=
  match FindByID repo storageID with
  | .error e => (.error (.notFound e), repo)
  | .ok storage =>
    if ¬ env.canAccessWorkspace storage.workspaceId user then
      (.error .insufficientPermissionsToTestStorage, repo)
    else
      match env.testConnection storage with
      | some msg => (.error (.connectionFailed msg), repo)
      | none =>
        let storage := { storage with lastSaveError := none }
        (.ok (), (Save repo storage).2)

/-- The body of the loop of `OnBeforeWorkspaceDeletion` (service.go
lines 34-50): skip system storages of other workspaces, abort on a
system storage owned by the workspace being deleted, delete everything
else. -/
def deletionLoop (workspaceID : UUID) :
    List Storage → StorageRepo → Except Err Unit × StorageRepo
  | [], repo => (.ok (), repo)
  | storage :: rest, repo =>
    if storage.isSystem && storage.workspaceId ≠ workspaceID then
      deletionLoop workspaceID rest repo
    else if storage.isSystem && storage.workspaceId = workspaceID then
      (.error .systemStorageBlocksWorkspaceDeletion, repo)
    else
      deletionLoop workspaceID rest (StorageRepository.Delete repo storage)

/-- `OnBeforeWorkspaceDeletion` (service.go lines 28-52): fetch the
storages visible to the workspace and run the deletion loop over them. -/
def OnBeforeWorkspaceDeletion (repo : StorageRepo) (workspaceID : UUID) :
    Except Err Unit × StorageRepo :=
  deletionLoop workspaceID (FindByWorkspaceID repo workspaceID) repo

/-- `TransferStorageToWorkspace` (service.go lines 313-379): load,
system-storage gate, management permission in source and target
workspaces, attachment guard (with or without a database transferred
along), then persist the record under the target workspace id. -/
def TransferStorageToWorkspace (env : ServiceEnv) (repo : StorageRepo) (user : User)
    (storageID : UUID) (targetWorkspaceID : UUID) (transferingWithDbID : Option UUID) :
    Except Err Unit × StorageRepo :=
  match FindByID repo storageID with
  | .error e => (.error (.notFound e), repo)
  | .ok existingStorage =>
    if existingStorage.isSystem then
      (.error .systemStorageCannotBeTransferred, repo)
    else if ¬ env.canManageDBs existingStorage.workspaceId user then
      (.error .insufficientPermissionsInSourceWorkspace, repo)
    else if ¬ env.canManageDBs targetWorkspaceID user then
      (.error .insufficientPermissionsInTargetWorkspace, repo)
    else
      let attachedDatabasesIDs := env.attachedDatabaseIDs existingStorage.id
      match transferingWithDbID with
      | some dbID =>
        if attachedDatabasesIDs.all (fun x => x = dbID) then
          (.ok (), (Save repo { existingStorage with workspaceId := targetWorkspaceID }).2)
        else
          (.error .storageHasOtherAttachedDatabasesCannotTransfer, repo)
      | none =>
        if attachedDatabasesIDs.length > 0 then
          (.error .storageHasAttachedDatabasesCannotTransfer, repo)
        else
          (.ok (), (Save repo { existingStorage with workspaceId := targetWorkspaceID }).2)

end StorageService

/-- The variant payload slot selected by an explicit type discriminator. -/
def payloadOfType (t : StorageType) (s : Storage) : Option VariantPayload :=
  match t with
  | .local => s.localStorage
  | .s3 => s.s3Storage
  | .nas => s.nasStorage
  | .azureBlob => s.azureBlobStorage
  | .ftp => s.ftpStorage
  | .sftp => s.sftpStorage
  | .googleDrive => s.googleDriveStorage
  | .rclone => s.rcloneStorage

/-- Whether an `Except` result is a success. -/
def isOkE {α β : Type} : Except α β → Bool
  | .ok _ => true
  | .error _ => false

/-- The per-record post-processing `GetStorage` and `GetStorages` apply
before returning a record to the caller (service.go lines 202-206 and
229-233): hide sensitive data, and hide the whole variant payload of a
system storage viewed by a non-admin. -/
def viewFor (user : User) (storage : Storage) : Storage :=
  if storage.HideSensitiveData.isSystem && user.role ≠ UserRole.admin then
    storage.HideSensitiveData.HideAllData
  else
    storage.HideSensitiveData

/-- All eight variant payload fields are null. -/
def allPayloadsNull (s : Storage) : Bool :=
  s.localStorage.isNone && s.s3Storage.isNone && s.nasStorage.isNone &&
  s.azureBlobStorage.isNone && s.ftpStorage.isNone && s.sftpStorage.isNone &&
  s.googleDriveStorage.isNone && s.rcloneStorage.isNone

/-- Every sensitive field of the payload carries the empty string. -/
def payloadSensitiveHidden (p : VariantPayload) : Bool :=
  p.sensitive.all (fun f => f.2 = FieldValue.plain "")

/-- Every sensitive field of every present variant payload carries the
empty string. -/
def sensitiveHidden (s : Storage) : Bool :=
  s.localStorage.all payloadSensitiveHidden && s.s3Storage.all payloadSensitiveHidden &&
  s.nasStorage.all payloadSensitiveHidden && s.azureBlobStorage.all payloadSensitiveHidden &&
  s.ftpStorage.all payloadSensitiveHidden && s.sftpStorage.all payloadSensitiveHidden &&
  s.googleDriveStorage.all payloadSensitiveHidden && s.rcloneStorage.all payloadSensitiveHidden

/-- The non-sensitive fields of every variant payload slot of `a` agree
with those of `b` (slot presence included). -/
def nonSensitiveSame (a b : Storage) : Bool :=
  decide (a.localStorage.map VariantPayload.nonSensitive
      = b.localStorage.map VariantPayload.nonSensitive) &&
  decide (a.s3Storage.map VariantPayload.nonSensitive
      = b.s3Storage.map VariantPayload.nonSensitive) &&
  decide (a.nasStorage.map VariantPayload.nonSensitive
      = b.nasStorage.map VariantPayload.nonSensitive) &&
  decide (a.azureBlobStorage.map VariantPayload.nonSensitive
      = b.azureBlobStorage.map VariantPayload.nonSensitive) &&
  decide (a.ftpStorage.map VariantPayload.nonSensitive
      = b.ftpStorage.map VariantPayload.nonSensitive) &&
  decide (a.sftpStorage.map VariantPayload.nonSensitive
      = b.sftpStorage.map VariantPayload.nonSensitive) &&
  decide (a.googleDriveStorage.map VariantPayload.nonSensitive
      = b.googleDriveStorage.map VariantPayload.nonSensitive) &&
  decide (a.rcloneStorage.map VariantPayload.nonSensitive
      = b.rcloneStorage.map VariantPayload.nonSensitive)

section Fixtures

/-- A collaborator environment granting every permission, with no cloud
mode, no attached databases, and a succeeding connection probe. -/
def envAllow : ServiceEnv :=
  { canManageDBs := fun _ _ => true
    canAccessWorkspace := fun _ _ => true
    isCloud := false
    attachedDatabaseIDs := fun _ => []
    testConnection := fun _ => none }

/-- Environment whose connection probe fails with a fixed reason. -/
def envProbeFail : ServiceEnv :=
  { envAllow with testConnection := fun _ => some "connection refused" }

/-- Environment denying workspace view access to everyone. -/
def envNoView : ServiceEnv :=
  { envAllow with canAccessWorkspace := fun _ _ => false }

/-- Environment denying workspace management rights to everyone. -/
def envNoManage : ServiceEnv :=
  { envAllow with canManageDBs := fun _ _ => false }

/-- A global admin. -/
def adminUser : User := ⟨100, .admin⟩

/-- A regular member without the global admin role. -/
def memberUser : User := ⟨101, .member⟩

/-- A payload with no fields (the local storage configuration). -/
def emptyPayload : VariantPayload := ⟨[], []⟩

/-- A persisted S3 payload: non-sensitive bucket and region, sensitive
keys already carrying ciphertext bound to storage id 1. -/
def s3StoredPayload : VariantPayload :=
  ⟨[("s3Bucket", "test-bucket"), ("s3Region", "us-east-1")],
   [("s3AccessKey", .cipher 1 "original-access-key"),
    ("s3SecretKey", .cipher 1 "original-secret-key")]⟩

/-- An incoming S3 payload for an update: new non-sensitive values, the
access key left empty ("leave unchanged") and a new secret key. -/
def s3IncomingPayload : VariantPayload :=
  ⟨[("s3Bucket", "updated-bucket"), ("s3Region", "us-west-2")],
   [("s3AccessKey", .plain ""), ("s3SecretKey", .plain "new-secret")]⟩

/-- A persisted non-system S3 storage, id 1, owned by workspace 2. -/
def baseStorage : Storage :=
  ⟨1, 2, "Test S3 Storage", .s3, false, none,
   none, some s3StoredPayload, none, none, none, none, none, none⟩

/-- The incoming update for `baseStorage` built from
`s3IncomingPayload`. -/
def incomingS3 : Storage :=
  ⟨1, 2, "Updated S3 Storage", .s3, false, none,
   none, some s3IncomingPayload, none, none, none, none, none, none⟩

/-- A persisted system local storage, id 3, owned by workspace 2. -/
def sysStorage : Storage :=
  ⟨3, 2, "System Storage", .local, true, none,
   some emptyPayload, none, none, none, none, none, none, none⟩

/-- The incoming update attempting to flip `sysStorage` to
non-system. -/
def sysStorageMadePrivate : Storage :=
  ⟨3, 2, "System Storage", .local, false, none,
   some emptyPayload, none, none, none, none, none, none, none⟩

/-- Repository holding only `baseStorage`. -/
def repo1 : StorageRepo := ⟨[baseStorage], 10⟩

/-- Repository holding only `sysStorage`. -/
def repoSys : StorageRepo := ⟨[sysStorage], 10⟩

/-- Repository holding `baseStorage` and `sysStorage`. -/
def repoBoth : StorageRepo := ⟨[baseStorage, sysStorage], 10⟩

/-- A non-system storage owned by workspace 5. -/
def ownedPlain : Storage :=
  ⟨4, 5, "Plain in 5", .local, false, none,
   some emptyPayload, none, none, none, none, none, none, none⟩

/-- A system storage owned by workspace 5. -/
def ownedSystem : Storage :=
  ⟨6, 5, "System in 5", .local, true, none,
   some emptyPayload, none, none, none, none, none, none, none⟩

/-- Repository in which a non-system storage of workspace 5 precedes a
system storage owned by the same workspace. -/
def repoMixed : StorageRepo := ⟨[ownedPlain, ownedSystem], 10⟩

/-- A fresh (nil id) storage submission carrying a bogus workspace id in
its payload. -/
def freshStorage : Storage :=
  ⟨nilUUID, 99, "Fresh Local Storage", .local, false, none,
   some emptyPayload, none, none, none, none, none, none, none⟩

end Fixtures

/-! ## Supporting lemmas -/

theorem hide_isSystem (s : Storage) : s.HideSensitiveData.isSystem = s.isSystem := rfl

theorem FindByID_ok (repo : StorageRepo) (i : UUID) (s : Storage)
    (h : StorageRepository.FindByID repo i = .ok s) :
    s.id = i ∧ s ∈ repo.storages := by
  unfold StorageRepository.FindByID at h
  cases hf : repo.storages.find? (fun st => st.id = i) with
  | none => rw [hf] at h; exact absurd h (by simp)
  | some x =>
    rw [hf] at h
    cases h
    have hp := List.find?_some hf
    have hm := List.mem_of_find?_eq_some hf
    simp only [decide_eq_true_eq] at hp
    exact ⟨hp, hm⟩

theorem Save_replace_lookup (repo : StorageRepo) (st : Storage)
    (hmem : ∃ s ∈ repo.storages, s.id = st.id) (hnil : st.id ≠ nilUUID) :
    ∀ r ∈ (StorageRepository.Save repo st).2.storages, r.id = st.id → r = st := by
  intro r hr hrid
  unfold StorageRepository.Save at hr
  rw [if_neg hnil] at hr
  have hany : repo.storages.any (fun s => s.id = st.id) = true := by
    obtain ⟨s, hs, hsid⟩ := hmem
    exact List.any_eq_true.mpr ⟨s, hs, by simp [hsid]⟩
  rw [if_pos hany] at hr
  simp only at hr
  obtain ⟨s, _, hseq⟩ := List.mem_map.mp hr
  by_cases hcase : s.id = st.id
  · rw [if_pos hcase] at hseq; exact hseq.symm
  · rw [if_neg hcase] at hseq; rw [← hseq] at hrid; exact absurd hrid hcase

/-! ## C9: encryption round trip -/

/-- C9: for every entity id E and plaintext, decrypting the result of
encrypting that plaintext under E yields the original plaintext, both
for a direct `Encrypt` call and for the per-field encryption step
applied to a non-empty plaintext sensitive field. -/
theorem encrypt_decrypt_roundtrip (e : UUID) (p : String) :
    FieldEncryptor.Decrypt e (FieldEncryptor.Encrypt e p) = .ok p ∧
    (p ≠ "" → FieldEncryptor.Decrypt e (encryptField e (.plain p)) = .ok p) := by
  constructor
  · simp [FieldEncryptor.Decrypt, FieldEncryptor.Encrypt]
  · intro hp
    simp [FieldEncryptor.Decrypt, FieldEncryptor.Encrypt, encryptField, hp]

/-- Witness for the round-trip theorem at entity id 7 and plaintext
"secret". -/
theorem encrypt_decrypt_roundtrip_witness :
    FieldEncryptor.Decrypt 7 (FieldEncryptor.Encrypt 7 "secret") = .ok "secret" ∧
    FieldEncryptor.Decrypt 7 (encryptField 7 (.plain "secret")) = .ok "secret" :=
  ⟨(encrypt_decrypt_roundtrip 7 "secret").1,
   (encrypt_decrypt_roundtrip 7 "secret").2 (by decide)⟩

/-! ## C1: TestStorageConnection persistence -/

/-- C1 (counterexample): with a failing probe, `TestStorageConnection`
returns the connection error but leaves the repository untouched — no
record carries the probe's error string in `lastSaveError`, so the error
string is not persisted. -/
theorem testConnection_failure_not_persisted :
    (StorageService.TestStorageConnection envProbeFail repo1 memberUser 1).1
        = .error (.connectionFailed "connection refused") ∧
    (StorageService.TestStorageConnection envProbeFail repo1 memberUser 1).2 = repo1 ∧
    ∀ s ∈ (StorageService.TestStorageConnection envProbeFail repo1 memberUser 1).2.storages,
      s.lastSaveError ≠ some "connection refused" := by
  refine ⟨rfl, rfl, ?_⟩
  decide

/-- C1 (amended): `TestStorageConnection` persists only on success — on
probe failure it returns the connection error with the repository
unchanged (the error string is set only on the in-memory record), and on
success it persists the record with `lastSaveError` cleared. -/
theorem TestStorageConnection_outcome (env : ServiceEnv) (repo : StorageRepo) (user : User)
    (sid : UUID) (st : Storage)
    (hfind : StorageRepository.FindByID repo sid = .ok st)
    (hview : env.canAccessWorkspace st.workspaceId user = true) :
    (∀ msg, env.testConnection st = some msg →
        StorageService.TestStorageConnection env repo user sid
          = (.error (.connectionFailed msg), repo)) ∧
    (env.testConnection st = none →
        StorageService.TestStorageConnection env repo user sid
          = (.ok (), (StorageRepository.Save repo { st with lastSaveError := none }).2)) ∧
    (sid ≠ nilUUID → env.testConnection st = none →
        ∀ r ∈ (StorageService.TestStorageConnection env repo user sid).2.storages,
          r.id = sid → r.lastSaveError = none) := by
  obtain ⟨hid, hm⟩ := FindByID_ok repo sid st hfind
  refine ⟨?_, ?_, ?_⟩
  · intro msg hmsg
    simp [StorageService.TestStorageConnection, hfind, hview, hmsg]
  · intro hnone
    simp [StorageService.TestStorageConnection, hfind, hview, hnone]
  · intro hnil hnone r hr hrid
    have hr2 : r ∈ (StorageRepository.Save repo { st with lastSaveError := none }).2.storages := by
      simpa [StorageService.TestStorageConnection, hfind, hview, hnone] using hr
    have := Save_replace_lookup repo { st with lastSaveError := none }
      ⟨st, hm, by simp⟩ (by simpa [hid] using hnil) r hr2 (by simpa [hid] using hrid)
    rw [this]

/-- Witness for the amended `TestStorageConnection` theorem: the failing
probe leaves `repo1` unchanged and the succeeding probe persists the
cleared `lastSaveError`. -/
theorem TestStorageConnection_outcome_witness :
    StorageService.TestStorageConnection envProbeFail repo1 memberUser 1
        = (.error (.connectionFailed "connection refused"), repo1) ∧
    StorageService.TestStorageConnection envAllow repo1 memberUser 1
        = (.ok (), (StorageRepository.Save repo1 { baseStorage with lastSaveError := none }).2) :=
  ⟨(TestStorageConnection_outcome envProbeFail repo1 memberUser 1 baseStorage rfl rfl).1
      "connection refused" rfl,
   (TestStorageConnection_outcome envAllow repo1 memberUser 1 baseStorage rfl rfl).2.1 rfl⟩

/-! ## C2: GetStorage permission check -/

/-- C2 (counterexample): a system storage is returned by `GetStorage`
even though the actor has no view rights on any workspace — the
workspace permission check is skipped for system storages. -/
theorem systemStorage_viewable_without_rights :
    isOkE (StorageService.GetStorage envNoView repoSys memberUser 3) = true ∧
    envNoView.canAccessWorkspace sysStorage.workspaceId memberUser = false := by
  exact ⟨rfl, rfl⟩

/-- C2 (amended): for a non-system storage, `GetStorage` returns the
permission error exactly when the actor lacks view rights on the owning
workspace, and returns the (redacted) record when the actor has view
rights; system storages bypass the workspace view check. -/
theorem GetStorage_requires_view_rights (env : ServiceEnv) (repo : StorageRepo) (user : User)
    (id : UUID) (st : Storage)
    (hfind : StorageRepository.FindByID repo id = .ok st)
    (hns : st.isSystem = false) :
    (env.canAccessWorkspace st.workspaceId user = false →
        StorageService.GetStorage env repo user id
          = .error .insufficientPermissionsToViewStorage) ∧
    (env.canAccessWorkspace st.workspaceId user = true →
        StorageService.GetStorage env repo user id = .ok (viewFor user st)) := by
  constructor
  · intro hno
    simp [StorageService.GetStorage, hfind, hns, hno]
  · intro hyes
    simp [StorageService.GetStorage, hfind, hns, hyes, viewFor, apply_ite, hide_isSystem]

/-- Witness for the amended `GetStorage` permission theorem on
`baseStorage`. -/
theorem GetStorage_requires_view_rights_witness :
    StorageService.GetStorage envNoView repo1 memberUser 1
        = .error .insufficientPermissionsToViewStorage ∧
    StorageService.GetStorage envAllow repo1 memberUser 1 = .ok (viewFor memberUser baseStorage) :=
  ⟨(GetStorage_requires_view_rights envNoView repo1 memberUser 1 baseStorage rfl rfl).1 rfl,
   (GetStorage_requires_view_rights envAllow repo1 memberUser 1 baseStorage rfl rfl).2 rfl⟩

/-! ## C3: redaction of returned storages -/

theorem payload_hide_hidden (p : VariantPayload) : payloadSensitiveHidden p.hide = true := by
  simp [payloadSensitiveHidden, VariantPayload.hide, List.all_map, Function.comp]

theorem optHide_hidden (o : Option VariantPayload) :
    (o.map VariantPayload.hide).all payloadSensitiveHidden = true := by
  cases o <;> simp [payload_hide_hidden]

theorem hide_sensitiveHidden (s : Storage) : sensitiveHidden s.HideSensitiveData = true := by
  simp [sensitiveHidden, Storage.HideSensitiveData, optHide_hidden]

theorem optHide_nonSensitive (o : Option VariantPayload) :
    o.map (VariantPayload.nonSensitive ∘ VariantPayload.hide)
      = o.map VariantPayload.nonSensitive := by
  cases o <;> simp [VariantPayload.hide]

theorem hide_nonSensitiveSame (s : Storage) : nonSensitiveSame s.HideSensitiveData s = true := by
  simp [nonSensitiveSame, Storage.HideSensitiveData, Option.map_map, optHide_nonSensitive]

theorem hideAll_allNull (s : Storage) : allPayloadsNull s.HideAllData = true := rfl

theorem hideAll_sensitiveHidden (s : Storage) : sensitiveHidden s.HideAllData = true := rfl

theorem GetStorage_cases (env : ServiceEnv) (repo : StorageRepo) (user : User) (id : UUID)
    (st : Storage) (hf : StorageRepository.FindByID repo id = .ok st) :
    StorageService.GetStorage env repo user id = .error .insufficientPermissionsToViewStorage
      ∨ StorageService.GetStorage env repo user id = .ok (viewFor user st) := by
  unfold StorageService.GetStorage
  rw [hf]
  simp only []
  split
  · left; rfl
  · right
    unfold viewFor
    exact (apply_ite Except.ok _ _ _).symm

/-- C3: every storage returned by `GetStorage` or `GetStorages` is the
stored record post-processed by `viewFor`; under `viewFor`, a system
storage viewed by a non-admin has all eight variant payloads null, and
for every other viewer all sensitive fields are returned empty while
non-sensitive fields keep their stored values (and no viewer ever
receives a non-empty sensitive field). -/
theorem view_redaction (env : ServiceEnv) (repo : StorageRepo) (user : User)
    (id workspaceID : UUID) :
    (∀ r, StorageService.GetStorage env repo user id = .ok r →
        ∃ st, StorageRepository.FindByID repo id = .ok st ∧ r = viewFor user st) ∧
    (∀ l, StorageService.GetStorages env repo user workspaceID = .ok l →
        l = (StorageRepository.FindByWorkspaceID repo workspaceID).map (viewFor user)) ∧
    (∀ st : Storage, st.isSystem = true → user.role ≠ UserRole.admin →
        allPayloadsNull (viewFor user st) = true) ∧
    (∀ st : Storage, (st.isSystem = true → user.role = UserRole.admin) →
        sensitiveHidden (viewFor user st) = true
          ∧ nonSensitiveSame (viewFor user st) st = true) ∧
    (∀ st : Storage, sensitiveHidden (viewFor user st) = true) := by
  refine ⟨?_, ?_, ?_, ?_, ?_⟩
  · intro r h
    cases hf : StorageRepository.FindByID repo id with
    | error e =>
      unfold StorageService.GetStorage at h
      rw [hf] at h
      exact absurd h (by simp)
    | ok st =>
      refine ⟨st, rfl, ?_⟩
      rcases GetStorage_cases env repo user id st hf with hc | hc
      · rw [hc] at h; exact absurd h (by simp)
      · rw [hc] at h; exact (Except.ok.injEq _ _ ▸ h).symm ▸ rfl
  · intro l h
    unfold StorageService.GetStorages at h
    split at h
    · exact absurd h (by simp)
    · cases h; rfl
  · intro st hs hr
    simp [viewFor, hide_isSystem, hs, hr, hideAll_allNull]
  · intro st h
    by_cases hs : st.isSystem = true
    · have hr := h hs
      simp [viewFor, hide_isSystem, hs, hr, hide_sensitiveHidden, hide_nonSensitiveSame]
    · have hs2 : st.isSystem = false := by
        cases hval : st.isSystem
        · rfl
        · exact absurd hval hs
      simp [viewFor, hide_isSystem, hs2, hide_sensitiveHidden, hide_nonSensitiveSame]
  · intro st
    unfold viewFor
    split
    · exact hideAll_sensitiveHidden _
    · exact hide_sensitiveHidden _

/-- Witness for the redaction theorem: a non-admin's view of the system
storage has every payload null, the admin's view of a plain storage has
empty sensitive fields with the stored non-sensitive fields intact, and
`GetStorage` actually produces the post-processed record. -/
theorem view_redaction_witness :
    allPayloadsNull (viewFor memberUser sysStorage) = true ∧
    sensitiveHidden (viewFor adminUser baseStorage) = true ∧
    nonSensitiveSame (viewFor adminUser baseStorage) baseStorage = true ∧
    (∃ st, StorageRepository.FindByID repoSys 3 = .ok st ∧
        viewFor memberUser sysStorage = viewFor memberUser st) := by
  refine ⟨(view_redaction envAllow repoSys memberUser 3 2).2.2.1 sysStorage rfl (by decide),
    ((view_redaction envAllow repo1 adminUser 1 2).2.2.2.1 baseStorage (fun _ => rfl)).1,
    ((view_redaction envAllow repo1 adminUser 1 2).2.2.2.1 baseStorage (fun _ => rfl)).2,
    ?_⟩
  obtain ⟨st, hfind, heq⟩ :=
    (view_redaction envAllow repoSys memberUser 3 2).1 (viewFor memberUser sysStorage) rfl
  exact ⟨st, hfind, heq⟩

/-! ## C4: partial update preserves secrets -/

theorem payloadOfType_Update (e i : Storage) :
    payloadOfType i.type (e.Update i)
      = Storage.updateSlot true (payloadOfType i.type e) (payloadOfType i.type i) := by
  cases h : i.type <;> simp [payloadOfType, Storage.Update, h]

theorem payloadOfType_Encrypt (t : StorageType) (s : Storage) :
    payloadOfType t s.EncryptSensitiveData
      = (payloadOfType t s).map (VariantPayload.encrypt s.id) := by
  cases t <;> simp [payloadOfType, Storage.EncryptSensitiveData]

theorem Update_id (e i : Storage) : (e.Update i).id = e.id := rfl

/-- C4: a successful `SaveStorage` update persists, for the active
variant, exactly the incoming non-sensitive fields, keeps the previously
persisted value of every sensitive field submitted empty, and replaces
(re-encrypting) every sensitive field submitted non-empty. -/
theorem SaveStorage_partial_update (env : ServiceEnv) (repo : StorageRepo) (user : User)
    (workspaceID : UUID) (incoming existing : Storage) (po pi : VariantPayload)
    (h1 : env.canManageDBs workspaceID user = true)
    (h2 : env.isCloud = false ∨ incoming.type ≠ StorageType.local
          ∨ user.role = UserRole.admin)
    (h3 : incoming.isSystem = false ∨ user.role = UserRole.admin)
    (h4 : incoming.id ≠ nilUUID)
    (h5 : StorageRepository.FindByID repo incoming.id = .ok existing)
    (h6 : existing.workspaceId = workspaceID)
    (h7 : existing.isSystem = false ∨ incoming.isSystem = true)
    (h8 : ((existing.Update incoming).EncryptSensitiveData).Validate = true)
    (hpo : payloadOfType incoming.type existing = some po)
    (hpi : payloadOfType incoming.type incoming = some pi) :
    StorageService.SaveStorage env repo user workspaceID incoming
      = (.ok (), (StorageRepository.Save repo ((existing.Update incoming).EncryptSensitiveData)).2)
    ∧ payloadOfType incoming.type ((existing.Update incoming).EncryptSensitiveData)
      = some { nonSensitive := pi.nonSensitive
               sensitive := pi.sensitive.map (fun f =>
                 if f.2.isEmptyVal then
                   (f.1, encryptField existing.id (lookupField po.sensitive f.1))
                 else
                   (f.1, encryptField existing.id f.2)) }
    ∧ (∀ eid e c, encryptField eid (FieldValue.cipher e c) = .cipher e c)
    ∧ (∀ s, s ≠ "" → encryptField existing.id (FieldValue.plain s)
          = .cipher existing.id s) := by
  refine ⟨?_, ?_, fun eid e c => rfl, fun s hs => by simp [encryptField, FieldEncryptor.Encrypt, hs]⟩
  · have hc2 : (env.isCloud && decide (incoming.type = StorageType.local)
        && !(decide (user.role = UserRole.admin))) = false := by
      rcases h2 with h | h | h <;> simp [h]
    have hc3 : (incoming.isSystem && !(decide (user.role = UserRole.admin))) = false := by
      rcases h3 with h | h <;> simp [h]
    have hc7 : (existing.isSystem && !incoming.isSystem) = false := by
      rcases h7 with h | h <;> simp [h]
    simp [StorageService.SaveStorage, h1, hc2, hc3, h4, h5, h6, hc7, h8]
  · rw [payloadOfType_Encrypt, payloadOfType_Update, hpo, hpi, Update_id]
    simp only [Storage.updateSlot, if_true]
    unfold VariantPayload.applyUpdate VariantPayload.encrypt
    simp only [Option.map_some', List.map_map, Option.some.injEq]
    refine congrArg _ (List.map_congr_left ?_)
    intro f _
    by_cases hf : f.2.isEmptyVal <;> simp [Function.comp, hf]

/-- Witness for the partial-update theorem: updating `baseStorage` with
`incomingS3` keeps the previously encrypted access key (submitted
empty) and re-encrypts the newly submitted secret key. -/
theorem SaveStorage_partial_update_witness :
    StorageService.SaveStorage envAllow repo1 memberUser 2 incomingS3
      = (.ok (),
         (StorageRepository.Save repo1 ((baseStorage.Update incomingS3).EncryptSensitiveData)).2)
    ∧ payloadOfType incomingS3.type ((baseStorage.Update incomingS3).EncryptSensitiveData)
      = some { nonSensitive := s3IncomingPayload.nonSensitive
               sensitive := s3IncomingPayload.sensitive.map (fun f =>
                 if f.2.isEmptyVal then
                   (f.1, encryptField baseStorage.id (lookupField s3StoredPayload.sensitive f.1))
                 else
                   (f.1, encryptField baseStorage.id f.2)) }
    ∧ (∀ eid e c, encryptField eid (FieldValue.cipher e c) = .cipher e c)
    ∧ (∀ s, s ≠ "" → encryptField baseStorage.id (FieldValue.plain s)
          = .cipher baseStorage.id s) :=
  SaveStorage_partial_update envAllow repo1 memberUser 2 incomingS3 baseStorage
    s3StoredPayload s3IncomingPayload rfl (Or.inl rfl) (Or.inl rfl) (by decide) rfl rfl
    (Or.inl rfl) (by decide) rfl rfl

/-! ## C5: system storage cannot be made private -/

/-- C5: when the stored record is a system storage and the submitted
update flips `isSystem` to false, `SaveStorage` fails for every actor
and environment with the repository unchanged (so the stored record
still has `isSystem = true`); when the actor passes the earlier
permission and ownership guards — a global admin included — the error
is precisely the system-storage constraint error. -/
theorem SaveStorage_system_immutable (repo : StorageRepo) (incoming existing : Storage)
    (h4 : incoming.id ≠ nilUUID)
    (h5 : StorageRepository.FindByID repo incoming.id = .ok existing)
    (hSys : existing.isSystem = true)
    (hInc : incoming.isSystem = false) :
    (∀ env user workspaceID,
        isOkE (StorageService.SaveStorage env repo user workspaceID incoming).1 = false ∧
        (StorageService.SaveStorage env repo user workspaceID incoming).2 = repo) ∧
    (∀ (env : ServiceEnv) (user : User) workspaceID,
        env.canManageDBs workspaceID user = true →
        (env.isCloud = false ∨ incoming.type ≠ StorageType.local
          ∨ user.role = UserRole.admin) →
        existing.workspaceId = workspaceID →
        StorageService.SaveStorage env repo user workspaceID incoming
          = (.error .systemStorageCannotBeMadePrivate, repo)) ∧
    (∀ env user workspaceID,
        StorageRepository.FindByID
          (StorageService.SaveStorage env repo user workspaceID incoming).2 incoming.id
          = .ok existing) := by
  have hall : ∀ env user workspaceID,
      isOkE (StorageService.SaveStorage env repo user workspaceID incoming).1 = false ∧
      (StorageService.SaveStorage env repo user workspaceID incoming).2 = repo := by
    intro env user workspaceID
    simp only [StorageService.SaveStorage, h5]
    split_ifs <;> simp_all [isOkE]
  refine ⟨hall, ?_, ?_⟩
  · intro env user workspaceID h1 h2 h6
    have hc2 : (env.isCloud && decide (incoming.type = StorageType.local)
        && !(decide (user.role = UserRole.admin))) = false := by
      rcases h2 with h | h | h <;> simp [h]
    simp [StorageService.SaveStorage, h1, hc2, h4, h5, h6, hSys, hInc]
  · intro env user workspaceID
    rw [(hall env user workspaceID).2]
    exact h5

/-- Witness for the immutability theorem: a global admin attempting to
flip `sysStorage` to non-system gets the constraint error, the
repository is unchanged, and the stored record is still the system
storage. -/
theorem SaveStorage_system_immutable_witness :
    StorageService.SaveStorage envAllow repoSys adminUser 2 sysStorageMadePrivate
      = (.error .systemStorageCannotBeMadePrivate, repoSys) ∧
    isOkE (StorageService.SaveStorage envAllow repoSys adminUser 2 sysStorageMadePrivate).1
      = false ∧
    StorageRepository.FindByID
      (StorageService.SaveStorage envAllow repoSys adminUser 2 sysStorageMadePrivate).2
      sysStorageMadePrivate.id = .ok sysStorage :=
  ⟨(SaveStorage_system_immutable repoSys sysStorageMadePrivate sysStorage (by decide) rfl rfl
      rfl).2.1 envAllow adminUser 2 rfl (Or.inl rfl) rfl,
   ((SaveStorage_system_immutable repoSys sysStorageMadePrivate sysStorage (by decide) rfl rfl
      rfl).1 envAllow adminUser 2).1,
   (SaveStorage_system_immutable repoSys sysStorageMadePrivate sysStorage (by decide) rfl rfl
      rfl).2.2 envAllow adminUser 2⟩

/-! ## C6: transfer guard -/

/-- C6: transferring a system storage always fails, whatever the
attachments; for a non-system storage with management rights in both
workspaces, the transfer succeeds — persisting the record under the
target workspace id — exactly when no databases are attached or a
`singleDatabaseId` is supplied that every attached database id equals,
and otherwise fails with an attachment-constraint error, leaving the
repository unchanged. -/
theorem TransferStorage_guard (env : ServiceEnv) (repo : StorageRepo) (user : User)
    (sid target : UUID) (withDb : Option UUID) (existing : Storage)
    (hfind : StorageRepository.FindByID repo sid = .ok existing) :
    (existing.isSystem = true →
        StorageService.TransferStorageToWorkspace env repo user sid target withDb
          = (.error .systemStorageCannotBeTransferred, repo)) ∧
    (existing.isSystem = false →
     env.canManageDBs existing.workspaceId user = true →
     env.canManageDBs target user = true →
       (isOkE (StorageService.TransferStorageToWorkspace env repo user sid target withDb).1
          = true
        ↔ env.attachedDatabaseIDs existing.id = []
          ∨ ∃ d, withDb = some d ∧ ∀ x ∈ env.attachedDatabaseIDs existing.id, x = d) ∧
       (isOkE (StorageService.TransferStorageToWorkspace env repo user sid target withDb).1
          = true →
        (StorageService.TransferStorageToWorkspace env repo user sid target withDb).2
            = (StorageRepository.Save repo { existing with workspaceId := target }).2 ∧
        (sid ≠ nilUUID →
          ∀ r ∈ (StorageService.TransferStorageToWorkspace env repo user sid target withDb
              ).2.storages, r.id = sid → r.workspaceId = target)) ∧
       (isOkE (StorageService.TransferStorageToWorkspace env repo user sid target withDb).1
          = false →
        (StorageService.TransferStorageToWorkspace env repo user sid target withDb).2 = repo ∧
        ((StorageService.TransferStorageToWorkspace env repo user sid target withDb).1
            = .error .storageHasOtherAttachedDatabasesCannotTransfer
          ∨ (StorageService.TransferStorageToWorkspace env repo user sid target withDb).1
            = .error .storageHasAttachedDatabasesCannotTransfer))) := by
  obtain ⟨hid, hm⟩ := FindByID_ok repo sid existing hfind
  constructor
  · intro hsys
    simp [StorageService.TransferStorageToWorkspace, hfind, hsys]
  · intro hns hsrc htgt
    have hsaved : ∀ hnil : sid ≠ nilUUID,
        ∀ r ∈ (StorageRepository.Save repo { existing with workspaceId := target }).2.storages,
          r.id = sid → r.workspaceId = target := by
      intro hnil r hr hrid
      have := Save_replace_lookup repo { existing with workspaceId := target }
        ⟨existing, hm, rfl⟩ (by simpa [hid] using hnil) r hr (by simpa [hid] using hrid)
      rw [this]
    cases withDb with
    | none =>
      cases hA : env.attachedDatabaseIDs existing.id with
      | nil =>
        have hcall : StorageService.TransferStorageToWorkspace env repo user sid target none
            = (.ok (), (StorageRepository.Save repo { existing with workspaceId := target }).2) := by
          simp [StorageService.TransferStorageToWorkspace, hfind, hns, hsrc, htgt, hA]
        refine ⟨?_, ?_, ?_⟩
        · rw [hcall]; simp [isOkE, hA]
        · intro _; rw [hcall]; exact ⟨rfl, fun hnil => by rw [hcall] at *; exact hsaved hnil⟩
        · intro hfalse; rw [hcall] at hfalse; exact absurd hfalse (by simp [isOkE])
      | cons a as =>
        have hcall : StorageService.TransferStorageToWorkspace env repo user sid target none
            = (.error .storageHasAttachedDatabasesCannotTransfer, repo) := by
          simp [StorageService.TransferStorageToWorkspace, hfind, hns, hsrc, htgt, hA]
        refine ⟨?_, ?_, ?_⟩
        · rw [hcall]; simp [isOkE, hA]
        · intro htrue; rw [hcall] at htrue; exact absurd htrue (by simp [isOkE])
        · intro _; rw [hcall]; exact ⟨rfl, Or.inr rfl⟩
    | some d =>
      by_cases hall : (env.attachedDatabaseIDs existing.id).all (fun x => x = d) = true
      · have hcall : StorageService.TransferStorageToWorkspace env repo user sid target (some d)
            = (.ok (), (StorageRepository.Save repo { existing with workspaceId := target }).2) := by
          simp only [StorageService.TransferStorageToWorkspace, hfind]
          simp [hns, hsrc, htgt, hall]
        refine ⟨?_, ?_, ?_⟩
        · rw [hcall]
          simp only [isOkE, true_iff]
          right
          exact ⟨d, rfl, by simpa using List.all_eq_true.mp hall⟩
        · intro _; rw [hcall]; exact ⟨rfl, fun hnil => by rw [hcall] at *; exact hsaved hnil⟩
        · intro hfalse; rw [hcall] at hfalse; exact absurd hfalse (by simp [isOkE])
      · have hcall : StorageService.TransferStorageToWorkspace env repo user sid target (some d)
            = (.error .storageHasOtherAttachedDatabasesCannotTransfer, repo) := by
          simp only [StorageService.TransferStorageToWorkspace, hfind]
          simp [hns, hsrc, htgt, hall]
        refine ⟨?_, ?_, ?_⟩
        · rw [hcall]
          simp only [isOkE]
          refine ⟨fun hft => absurd hft (by simp), ?_⟩
          rintro (hnil | ⟨d2, hd2, hforall⟩)
          · exact absurd (by simp [hnil]) hall
          · cases hd2
            exact absurd (List.all_eq_true.mpr (by simpa using hforall)) hall
        · intro htrue; rw [hcall] at htrue; exact absurd htrue (by simp [isOkE])
        · intro _; rw [hcall]; exact ⟨rfl, Or.inl rfl⟩

/-- Witness for the transfer-guard theorem: transferring `sysStorage`
fails with the system-storage error, and transferring `baseStorage`
(no attachments) to workspace 7 succeeds with the stored record moved
to workspace 7. -/
theorem TransferStorage_guard_witness :
    StorageService.TransferStorageToWorkspace envAllow repoSys memberUser 3 7 none
      = (.error .systemStorageCannotBeTransferred, repoSys) ∧
    isOkE (StorageService.TransferStorageToWorkspace envAllow repo1 memberUser 1 7 none).1
      = true ∧
    (∀ r ∈ (StorageService.TransferStorageToWorkspace envAllow repo1 memberUser 1 7 none
        ).2.storages, r.id = 1 → r.workspaceId = 7) := by
  refine ⟨(TransferStorage_guard envAllow repoSys memberUser 3 7 none sysStorage rfl).1 rfl,
    ?_, ?_⟩
  · exact ((TransferStorage_guard envAllow repo1 memberUser 1 7 none baseStorage rfl).2
      rfl rfl rfl).1.mpr (Or.inl rfl)
  · have h := ((TransferStorage_guard envAllow repo1 memberUser 1 7 none baseStorage rfl).2
      rfl rfl rfl).2.1 (((TransferStorage_guard envAllow repo1 memberUser 1 7 none
        baseStorage rfl).2 rfl rfl rfl).1.mpr (Or.inl rfl))
    exact h.2 (by decide)

/-! ## C7: workspace deletion guard -/

theorem deletionLoop_subset (wid : UUID) (L : List Storage) (R : StorageRepo) :
    ∀ r ∈ (StorageService.deletionLoop wid L R).2.storages, r ∈ R.storages := by
  induction L generalizing R with
  | nil => intro r hr; exact hr
  | cons y rest ih =>
    intro r hr
    unfold StorageService.deletionLoop at hr
    split at hr
    · exact ih R r hr
    split at hr
    · exact hr
    · have hmem := ih (StorageRepository.Delete R y) r hr
      simp only [StorageRepository.Delete] at hmem
      exact List.mem_of_mem_filter hmem

theorem deletionLoop_error_iff (wid : UUID) (L : List Storage) (R : StorageRepo) :
    (StorageService.deletionLoop wid L R).1 = .error .systemStorageBlocksWorkspaceDeletion
      ↔ ∃ s ∈ L, s.isSystem = true ∧ s.workspaceId = wid := by
  induction L generalizing R with
  | nil => simp [StorageService.deletionLoop]
  | cons y rest ih =>
    unfold StorageService.deletionLoop
    split
    · rename_i h1
      have hy : y.isSystem = true ∧ y.workspaceId ≠ wid := by simpa using h1
      rw [ih R]
      constructor
      · rintro ⟨s, hs, hp⟩; exact ⟨s, List.mem_cons_of_mem _ hs, hp⟩
      · rintro ⟨s, hs, hp⟩
        rcases List.mem_cons.mp hs with rfl | hs2
        · exact absurd hp.2 hy.2
        · exact ⟨s, hs2, hp⟩
    split
    · rename_i h1 h2
      have hy : y.isSystem = true ∧ y.workspaceId = wid := by simpa using h2
      refine iff_of_true rfl ⟨y, List.mem_cons_self y rest, hy⟩
    · rename_i h1 h2
      have hy : y.isSystem = false := by
        cases hsy : y.isSystem
        · rfl
        · exfalso
          by_cases hws : y.workspaceId = wid
          · exact h2 (by simp [hsy, hws])
          · exact h1 (by simp [hsy, hws])
      rw [ih (StorageRepository.Delete R y)]
      constructor
      · rintro ⟨s, hs, hp⟩; exact ⟨s, List.mem_cons_of_mem _ hs, hp⟩
      · rintro ⟨s, hs, hp⟩
        rcases List.mem_cons.mp hs with rfl | hs2
        · rw [hy] at hp; exact absurd hp.1 (by simp)
        · exact ⟨s, hs2, hp⟩

theorem deletionLoop_ok_or (wid : UUID) (L : List Storage) (R : StorageRepo) :
    (StorageService.deletionLoop wid L R).1 = .ok ()
      ∨ (StorageService.deletionLoop wid L R).1
          = .error .systemStorageBlocksWorkspaceDeletion := by
  induction L generalizing R with
  | nil => exact Or.inl rfl
  | cons y rest ih =>
    unfold StorageService.deletionLoop
    split
    · exact ih R
    split
    · exact Or.inr rfl
    · exact ih (StorageRepository.Delete R y)

theorem deletionLoop_retain (wid : UUID) (L : List Storage) (R : StorageRepo) (s : Storage)
    (hs : s ∈ R.storages)
    (hnd : ∀ x ∈ L, x.isSystem = false → x.id ≠ s.id) :
    s ∈ (StorageService.deletionLoop wid L R).2.storages := by
  induction L generalizing R with
  | nil => exact hs
  | cons y rest ih =>
    unfold StorageService.deletionLoop
    split
    · exact ih R hs (fun x hx => hnd x (List.mem_cons_of_mem _ hx))
    split
    · exact hs
    · rename_i h1 h2
      have hy : y.isSystem = false := by
        cases hsy : y.isSystem
        · rfl
        · exfalso
          by_cases hws : y.workspaceId = wid
          · exact h2 (by simp [hsy, hws])
          · exact h1 (by simp [hsy, hws])
      have hid : y.id ≠ s.id := hnd y (List.mem_cons_self y rest) hy
      refine ih (StorageRepository.Delete R y) ?_
        (fun x hx => hnd x (List.mem_cons_of_mem _ hx))
      simp only [StorageRepository.Delete]
      have hne : s.id ≠ y.id := fun he => hid he.symm
      exact List.mem_filter.mpr ⟨hs, by simpa using hne⟩

theorem deletionLoop_removed (wid : UUID) (L : List Storage) (R : StorageRepo) (x : Storage)
    (hx : x ∈ L) (hxs : x.isSystem = false)
    (hnoSys : ∀ s ∈ L, s.isSystem = true → s.workspaceId ≠ wid) :
    ∀ r ∈ (StorageService.deletionLoop wid L R).2.storages, r.id ≠ x.id := by
  induction L generalizing R with
  | nil => exact absurd hx (List.not_mem_nil x)
  | cons y rest ih =>
    unfold StorageService.deletionLoop
    split
    · rename_i h1
      have hy1 : y.isSystem = true ∧ y.workspaceId ≠ wid := by simpa using h1
      have hy : y.isSystem = true := hy1.1
      have hx2 : x ∈ rest := by
        rcases List.mem_cons.mp hx with rfl | h
        · rw [hy] at hxs; exact absurd hxs (by simp)
        · exact h
      exact ih R hx2 (fun s hs => hnoSys s (List.mem_cons_of_mem _ hs))
    split
    · rename_i h1 h2
      have hy : y.isSystem = true ∧ y.workspaceId = wid := by simpa using h2
      exact absurd hy.2 (hnoSys y (List.mem_cons_self y rest) hy.1)
    · rename_i h1 h2
      by_cases hxy : x = y
      · subst hxy
        intro r hr
        have hsub := deletionLoop_subset wid rest (StorageRepository.Delete R x) r hr
        simp only [StorageRepository.Delete] at hsub
        have := (List.mem_filter.mp hsub).2
        simpa using this
      · have hx2 : x ∈ rest := by
          rcases List.mem_cons.mp hx with rfl | h
          · exact absurd rfl hxy
          · exact h
        exact ih (StorageRepository.Delete R y) hx2
          (fun s hs => hnoSys s (List.mem_cons_of_mem _ hs))

/-- C7: `OnBeforeWorkspaceDeletion` returns the system-storage
constraint error exactly when some system storage is owned by the
workspace being deleted (blocking the whole deletion), succeeds
otherwise, always keeps every system storage of another workspace
stored, and — in the unblocked case — removes every non-system storage
owned by the workspace. -/
theorem OnBeforeWorkspaceDeletion_guard (repo : StorageRepo) (wid : UUID)
    (hNodup : (repo.storages.map Storage.id).Nodup) :
    ((StorageService.OnBeforeWorkspaceDeletion repo wid).1
        = .error .systemStorageBlocksWorkspaceDeletion
      ↔ ∃ s ∈ repo.storages, s.isSystem = true ∧ s.workspaceId = wid) ∧
    ((¬ ∃ s ∈ repo.storages, s.isSystem = true ∧ s.workspaceId = wid) →
        (StorageService.OnBeforeWorkspaceDeletion repo wid).1 = .ok ()) ∧
    (∀ s ∈ repo.storages, s.isSystem = true → s.workspaceId ≠ wid →
        s ∈ (StorageService.OnBeforeWorkspaceDeletion repo wid).2.storages) ∧
    ((¬ ∃ s ∈ repo.storages, s.isSystem = true ∧ s.workspaceId = wid) →
        ∀ s ∈ repo.storages, s.isSystem = false → s.workspaceId = wid →
          s ∉ (StorageService.OnBeforeWorkspaceDeletion repo wid).2.storages) := by
  have hinj := List.inj_on_of_nodup_map hNodup
  have hex : (∃ s ∈ StorageRepository.FindByWorkspaceID repo wid,
        s.isSystem = true ∧ s.workspaceId = wid)
      ↔ ∃ s ∈ repo.storages, s.isSystem = true ∧ s.workspaceId = wid := by
    constructor
    · rintro ⟨s, hs, hp⟩
      exact ⟨s, List.mem_of_mem_filter hs, hp⟩
    · rintro ⟨s, hs, hp⟩
      exact ⟨s, List.mem_filter.mpr ⟨hs, by simp [hp.1, hp.2]⟩, hp⟩
  have herr := deletionLoop_error_iff wid (StorageRepository.FindByWorkspaceID repo wid) repo
  refine ⟨?_, ?_, ?_, ?_⟩
  · unfold StorageService.OnBeforeWorkspaceDeletion
    exact herr.trans hex
  · intro hnone
    rcases deletionLoop_ok_or wid (StorageRepository.FindByWorkspaceID repo wid) repo with
      h | h
    · exact h
    · exact absurd (hex.mp (herr.mp h)) hnone
  · intro s hs hsys hws
    refine deletionLoop_retain wid _ repo s hs ?_
    intro x hx hxs hxid
    have hxmem := List.mem_of_mem_filter hx
    have : x = s := hinj hxmem hs hxid
    rw [this] at hxs
    rw [hxs] at hsys
    exact absurd hsys (by simp)
  · intro hnone s hs hsys hws hmem
    have hsL : s ∈ StorageRepository.FindByWorkspaceID repo wid :=
      List.mem_filter.mpr ⟨hs, by simp [hws]⟩
    have hnoSys : ∀ x ∈ StorageRepository.FindByWorkspaceID repo wid,
        x.isSystem = true → x.workspaceId ≠ wid := by
      intro x hx hxs hxw
      exact hnone ⟨x, List.mem_of_mem_filter hx, hxs, hxw⟩
    exact deletionLoop_removed wid _ repo s hsL hsys hnoSys s hmem rfl

/-- Witness for the workspace-deletion guard: deleting workspace 5 in
`repoMixed` is blocked by the owned system storage, while deleting
workspace 2 in `repo1` succeeds and removes the owned non-system
storage; the system storage of workspace 2 survives deleting
workspace 7. -/
theorem OnBeforeWorkspaceDeletion_guard_witness :
    (StorageService.OnBeforeWorkspaceDeletion repoMixed 5).1
      = .error .systemStorageBlocksWorkspaceDeletion ∧
    (StorageService.OnBeforeWorkspaceDeletion repo1 2).1 = .ok () ∧
    baseStorage ∉ (StorageService.OnBeforeWorkspaceDeletion repo1 2).2.storages ∧
    sysStorage ∈ (StorageService.OnBeforeWorkspaceDeletion repoSys 7).2.storages := by
  refine ⟨?_, ?_, ?_, ?_⟩
  · exact (OnBeforeWorkspaceDeletion_guard repoMixed 5 (by decide)).1.mpr
      ⟨ownedSystem, by decide, by decide, by decide⟩
  · exact (OnBeforeWorkspaceDeletion_guard repo1 2 (by decide)).2.1 (by decide)
  · exact (OnBeforeWorkspaceDeletion_guard repo1 2 (by decide)).2.2.2 (by decide)
      baseStorage (by decide) rfl rfl
  · exact (OnBeforeWorkspaceDeletion_guard repoSys 7 (by decide)).2.2.1
      sysStorage (by decide) rfl (by decide)

/-! ## C8: no mutation on permission or constraint errors -/

theorem SaveStorage_frame (env : ServiceEnv) (repo : StorageRepo) (user : User)
    (workspaceID : UUID) (st : Storage) :
    (StorageService.SaveStorage env repo user workspaceID st).2 = repo
      ∨ (StorageService.SaveStorage env repo user workspaceID st).1 = .ok () := by
  unfold StorageService.SaveStorage
  split
  · exact Or.inl rfl
  split
  · exact Or.inl rfl
  split
  · exact Or.inl rfl
  split
  · split
    · exact Or.inl rfl
    · split
      · exact Or.inl rfl
      split
      · exact Or.inl rfl
      dsimp only
      split
      · exact Or.inl rfl
      · exact Or.inr rfl
  · dsimp only
    split
    · exact Or.inl rfl
    · exact Or.inr rfl

theorem DeleteStorage_frame (env : ServiceEnv) (repo : StorageRepo) (user : User)
    (sid : UUID) :
    (StorageService.DeleteStorage env repo user sid).2 = repo
      ∨ (StorageService.DeleteStorage env repo user sid).1 = .ok () := by
  unfold StorageService.DeleteStorage
  split
  · exact Or.inl rfl
  split
  · exact Or.inl rfl
  split
  · exact Or.inl rfl
  split
  · exact Or.inl rfl
  · exact Or.inr rfl

theorem TransferStorage_frame (env : ServiceEnv) (repo : StorageRepo) (user : User)
    (sid target : UUID) (withDb : Option UUID) :
    (StorageService.TransferStorageToWorkspace env repo user sid target withDb).2 = repo
      ∨ (StorageService.TransferStorageToWorkspace env repo user sid target withDb).1
          = .ok () := by
  unfold StorageService.TransferStorageToWorkspace
  split
  · exact Or.inl rfl
  split
  · exact Or.inl rfl
  split
  · exact Or.inl rfl
  split
  · exact Or.inl rfl
  dsimp only
  split
  · split
    · exact Or.inr rfl
    · exact Or.inl rfl
  · split
    · exact Or.inl rfl
    · exact Or.inr rfl

/-- C8 (counterexample): `OnBeforeWorkspaceDeletion` on a repository
where a non-system storage of the workspace precedes an owned system
storage returns the constraint error, yet the repository has been
mutated — the non-system storage was already deleted. -/
theorem workspaceDeletion_partial_write :
    (StorageService.OnBeforeWorkspaceDeletion repoMixed 5).1
      = .error .systemStorageBlocksWorkspaceDeletion ∧
    (StorageService.OnBeforeWorkspaceDeletion repoMixed 5).2 ≠ repoMixed ∧
    ownedPlain ∈ repoMixed.storages ∧
    ownedPlain ∉ (StorageService.OnBeforeWorkspaceDeletion repoMixed 5).2.storages := by
  refine ⟨rfl, by decide, by decide, by decide⟩

/-- C8 (amended): `SaveStorage`, `DeleteStorage` and
`TransferStorageToWorkspace` perform no repository mutation whenever
they return an error; `OnBeforeWorkspaceDeletion` is excluded, since it
deletes the non-system storages it encounters before a blocking system
storage raises the constraint error. -/
theorem error_implies_no_mutation :
    (∀ (env : ServiceEnv) (repo : StorageRepo) (user : User) (workspaceID : UUID)
        (st : Storage) (e : Err),
        (StorageService.SaveStorage env repo user workspaceID st).1 = .error e →
        (StorageService.SaveStorage env repo user workspaceID st).2 = repo) ∧
    (∀ (env : ServiceEnv) (repo : StorageRepo) (user : User) (sid : UUID) (e : Err),
        (StorageService.DeleteStorage env repo user sid).1 = .error e →
        (StorageService.DeleteStorage env repo user sid).2 = repo) ∧
    (∀ (env : ServiceEnv) (repo : StorageRepo) (user : User) (sid target : UUID)
        (withDb : Option UUID) (e : Err),
        (StorageService.TransferStorageToWorkspace env repo user sid target withDb).1
            = .error e →
        (StorageService.TransferStorageToWorkspace env repo user sid target withDb).2
            = repo) := by
  refine ⟨?_, ?_, ?_⟩
  · intro env repo user workspaceID st e h
    rcases SaveStorage_frame env repo user workspaceID st with h2 | h2
    · exact h2
    · rw [h2] at h; exact absurd h (by simp)
  · intro env repo user sid e h
    rcases DeleteStorage_frame env repo user sid with h2 | h2
    · exact h2
    · rw [h2] at h; exact absurd h (by simp)
  · intro env repo user sid target withDb e h
    rcases TransferStorage_frame env repo user sid target withDb with h2 | h2
    · exact h2
    · rw [h2] at h; exact absurd h (by simp)

/-- Witness for the no-mutation theorem: three denied operations leave
`repo1` untouched. -/
theorem error_implies_no_mutation_witness :
    (StorageService.SaveStorage envNoManage repo1 memberUser 2 incomingS3).2 = repo1 ∧
    (StorageService.DeleteStorage envNoManage repo1 memberUser 1).2 = repo1 ∧
    (StorageService.TransferStorageToWorkspace envNoManage repo1 memberUser 1 7 none).2
      = repo1 :=
  ⟨error_implies_no_mutation.1 envNoManage repo1 memberUser 2 incomingS3
      .insufficientPermissionsToManageStorage rfl,
   error_implies_no_mutation.2.1 envNoManage repo1 memberUser 1
      .insufficientPermissionsToManageStorage rfl,
   error_implies_no_mutation.2.2 envNoManage repo1 memberUser 1 7 none
      .insufficientPermissionsInSourceWorkspace rfl⟩

/-! ## C10: creation forces the workspace id -/

theorem pairErrOk {e : Err} {R : StorageRepo} {r1 : Except Err Unit} {r2 : StorageRepo}
    (hsplit : ((Except.error e : Except Err Unit), R) = (r1, r2))
    (hok : r1 = .ok ()) : False := by
  have h1 : (Except.error e : Except Err Unit) = r1 := congrArg Prod.fst hsplit
  rw [hok] at h1
  exact absurd h1 (by simp)

theorem EncryptSensitiveData_id (s : Storage) : s.EncryptSensitiveData.id = s.id := rfl

theorem EncryptSensitiveData_workspaceId (s : Storage) :
    s.EncryptSensitiveData.workspaceId = s.workspaceId := rfl

/-- C10: a successful create (`id` nil) persists a fresh record whose
`workspaceId` is the `workspaceID` argument of `SaveStorage`, whatever
workspace id the submitted payload carried. -/
theorem SaveStorage_create_workspace (env : ServiceEnv) (repo : StorageRepo) (user : User)
    (workspaceID : UUID) (storage : Storage)
    (hid : storage.id = nilUUID)
    (hok : (StorageService.SaveStorage env repo user workspaceID storage).1 = .ok ()) :
    ∃ stored,
      (StorageService.SaveStorage env repo user workspaceID storage).2.storages
        = repo.storages ++ [stored] ∧
      stored.workspaceId = workspaceID ∧ stored.id = repo.nextId := by
  cases hsplit : StorageService.SaveStorage env repo user workspaceID storage with
  | mk r1 r2 =>
  rw [hsplit] at hok
  simp only at hok
  unfold StorageService.SaveStorage at hsplit
  split at hsplit
  · exact (pairErrOk hsplit hok).elim
  split at hsplit
  · exact (pairErrOk hsplit hok).elim
  split at hsplit
  · exact (pairErrOk hsplit hok).elim
  split at hsplit
  · rename_i hcond
    exact absurd hid hcond
  · dsimp only at hsplit
    split at hsplit
    · exact (pairErrOk hsplit hok).elim
    · have hr2 : r2 = (StorageRepository.Save repo
          ({ storage with workspaceId := workspaceID } : Storage).EncryptSensitiveData).2 :=
        (congrArg Prod.snd hsplit).symm
      have hfid : ({ storage with workspaceId := workspaceID
          } : Storage).EncryptSensitiveData.id = nilUUID := by
        rw [EncryptSensitiveData_id]; exact hid
      refine ⟨{ ({ storage with workspaceId := workspaceID } : Storage).EncryptSensitiveData
          with id := repo.nextId }, ?_, rfl, rfl⟩
      rw [hr2]
      simp [StorageRepository.Save, hfid]

/-- Witness for the creation theorem: creating `freshStorage` (payload
claims workspace 99) in workspace 2 stores a record owned by
workspace 2. -/
theorem SaveStorage_create_workspace_witness :
    ∃ stored,
      (StorageService.SaveStorage envAllow repo1 memberUser 2 freshStorage).2.storages
        = repo1.storages ++ [stored] ∧
      stored.workspaceId = 2 ∧ stored.id = repo1.nextId :=
  SaveStorage_create_workspace envAllow repo1 memberUser 2 freshStorage rfl rfl

end Databasus
